import Mathlib

/-!
Verification development for the BURST configuration-space engine.

The engine erodes an enclosure polygon by the robot radius into a Boundary
(a curvilinear polygon of straight segments and circular arcs), and answers
membership and crossing queries against that Boundary.  The C++ source works
over an exact kernel; the embedding below uses the rational numbers, with
points as pairs of rationals, and translates each routine of the source into
an executable Lean function.  External CGAL routines that the source calls
(the inset computation, the oriented-side test of a polygon set, the
arrangement vertex enumeration) are modelled from their documented contracts:
the inset computation is passed in as a function argument, and the
arrangement vertex enumeration order, which CGAL leaves unspecified, is
passed in as an order argument.
-/

namespace BURST

/-- A point (equally, a vector) of the rational plane. -/
structure Pt where
  x : ℚ
  y : ℚ
deriving DecidableEq, Repr

def Pt.add (p q : Pt) : Pt := ⟨p.x + q.x, p.y + q.y⟩

def Pt.sub (p q : Pt) : Pt := ⟨p.x - q.x, p.y - q.y⟩

def Pt.smul (c : ℚ) (p : Pt) : Pt := ⟨c * p.x, c * p.y⟩

/-- Cross product of two vectors. -/
def cross (u v : Pt) : ℚ := u.x * v.y - u.y * v.x

/-- Dot product of two vectors. -/
def dot (u v : Pt) : ℚ := u.x * v.x + u.y * v.y

/-- Squared euclidean distance between two points. -/
def sqDist (p q : Pt) : ℚ := (q.x - p.x) ^ 2 + (q.y - p.y) ^ 2

/-- Membership of a point on a closed straight segment from a to b,
decided exactly over the rationals (collinearity plus a range check). -/
def onSegPt (a b p : Pt) : Bool :=
  decide (cross (Pt.sub b a) (Pt.sub p a) = 0) &&
  decide (0 ≤ dot (Pt.sub b a) (Pt.sub p a)) &&
  decide (dot (Pt.sub b a) (Pt.sub p a) ≤ dot (Pt.sub b a) (Pt.sub b a))

/-- Membership of a direction w in the counterclockwise angular sweep that
starts at direction u and ends at direction v. -/
def inCcwSector (u v w : Pt) : Bool :=
  if 0 ≤ cross u v then decide (0 ≤ cross u w) && decide (0 ≤ cross w v)
  else decide (0 ≤ cross u w) || decide (0 ≤ cross w v)

/-- Membership of a point on a circular arc with the given center and radius
running from s to t (counterclockwise when the flag holds). -/
def onArcPt (c : Pt) (r : ℚ) (s t : Pt) (ccw : Bool) (p : Pt) : Bool :=
  decide (sqDist c p = r * r) &&
  (if ccw then inCcwSector (Pt.sub s c) (Pt.sub t c) (Pt.sub p c)
   else inCcwSector (Pt.sub t c) (Pt.sub s c) (Pt.sub p c))

/-- One x-monotone piece of a Boundary curve: a straight segment (the inward
offset of an enclosure edge) or a circular arc (the rounding of a reflex
enclosure vertex). -/
inductive CurvEdge where
  | seg (src tgt : Pt)
  | arc (center : Pt) (radius : ℚ) (src tgt : Pt) (ccw : Bool)
deriving DecidableEq, Repr

def CurvEdge.srcPt : CurvEdge → Pt
  | .seg s _ => s
  | .arc _ _ s _ _ => s

def CurvEdge.tgtPt : CurvEdge → Pt
  | .seg _ t => t
  | .arc _ _ _ t _ => t

/-- Reversal of one curve piece, as performed edgewise by the reversal of a
polygon boundary. -/
def CurvEdge.flip : CurvEdge → CurvEdge
  | .seg s t => .seg t s
  | .arc c r s t w => .arc c r t s (!w)

/-- Membership of a point on one curve piece. -/
def onEdge (e : CurvEdge) (p : Pt) : Bool :=
  match e with
  | .seg s t => onSegPt s t p
  | .arc c r s t w => onArcPt c r s t w p

/-- General_polygon_2 of the source: a closed curve given by its cyclic list
of segment and arc pieces. -/
structure CurvilinearPolygon2D where
  edges : List CurvEdge
deriving DecidableEq, Repr

/-- Membership of a point on the Boundary curve: the point lies on some
segment or arc of the polygon. -/
def onCurve (P : CurvilinearPolygon2D) (p : Pt) : Bool :=
  P.edges.any (fun e => onEdge e p)

/-- Plain polygon (ordered vertex list), the enclosure input of the engine
and the configuration environment of the movement model in models.hpp. -/
structure Polygon2D where
  vertices : List Pt
deriving DecidableEq, Repr

/-- Consecutive vertex pairs of a polygon, wrapping around. -/
def Polygon2D.edgePairs (P : Polygon2D) : List (Pt × Pt) :=
  P.vertices.zip (P.vertices.rotate 1)

/-- CGAL orientation values. -/
inductive Orientation where
  | clockwise
  | counterclockwise
  | collinear
deriving DecidableEq, Repr

/-- Cross-product contribution of one curve piece to the shoelace sum. -/
def crossOfEdge (e : CurvEdge) : ℚ := cross e.srcPt e.tgtPt

/-- Shoelace sum of a curvilinear polygon over the endpoints of its pieces. -/
def sumCross (P : CurvilinearPolygon2D) : ℚ := (P.edges.map crossOfEdge).sum

/-- Orientation of a curvilinear polygon.  Models the orientation predicate
of the CGAL polygon through the shoelace sign over the curve vertices. -/
def orientationOf (P : CurvilinearPolygon2D) : Orientation :=
  if 0 < sumCross P then Orientation.counterclockwise
  else if sumCross P < 0 then Orientation.clockwise
  else Orientation.collinear

/-- Model of reverse_orientation of the CGAL polygon: the pieces are listed
in the opposite cyclic order, each traversed backwards. -/
def reversePoly (P : CurvilinearPolygon2D) : CurvilinearPolygon2D :=
  ⟨(P.edges.map CurvEdge.flip).reverse⟩

/-- Axis-aligned bounding box, as Bbox_2 of the source kernel. -/
structure BBox where
  xmin : ℚ
  xmax : ℚ
  ymin : ℚ
  ymax : ℚ
deriving DecidableEq, Repr

def BBox.join (a b : BBox) : BBox :=
  ⟨min a.xmin b.xmin, max a.xmax b.xmax, min a.ymin b.ymin, max a.ymax b.ymax⟩

def BBox.addPt (a : BBox) (p : Pt) : BBox :=
  ⟨min a.xmin p.x, max a.xmax p.x, min a.ymin p.y, max a.ymax p.y⟩

def bboxOfPt (p : Pt) : BBox := ⟨p.x, p.x, p.y, p.y⟩

/-- Bounding box of one curve piece.  For a segment this is the box of its
endpoints; for an arc the box of the endpoints is widened by each axis
extreme of the supporting circle that the arc passes through. -/
def bboxOfEdge (e : CurvEdge) : BBox :=
  match e with
  | .seg s t => (bboxOfPt s).addPt t
  | .arc c r s t w =>
      let b0 := (bboxOfPt s).addPt t
      let b1 := if onArcPt c r s t w ⟨c.x + r, c.y⟩ then b0.addPt ⟨c.x + r, c.y⟩ else b0
      let b2 := if onArcPt c r s t w ⟨c.x - r, c.y⟩ then b1.addPt ⟨c.x - r, c.y⟩ else b1
      let b3 := if onArcPt c r s t w ⟨c.x, c.y + r⟩ then b2.addPt ⟨c.x, c.y + r⟩ else b2
      if onArcPt c r s t w ⟨c.x, c.y - r⟩ then b3.addPt ⟨c.x, c.y - r⟩ else b3

/-- Bounding box of a curvilinear polygon (lazily cached by the source,
recomputed here since the embedding is pure). -/
def bboxOf (P : CurvilinearPolygon2D) : BBox :=
  match P.edges with
  | [] => ⟨0, 0, 0, 0⟩
  | e :: es => es.foldl (fun b f => b.join (bboxOfEdge f)) (bboxOfEdge e)

/-- Closed membership of a point in a bounding box. -/
def inBBox (b : BBox) (p : Pt) : Prop :=
  b.xmin ≤ p.x ∧ p.x ≤ b.xmax ∧ b.ymin ≤ p.y ∧ p.y ≤ b.ymax

instance (b : BBox) (p : Pt) : Decidable (inBBox b p) := by
  unfold inBBox; infer_instance

/-- Strict (open) membership of a point in a bounding box. -/
def strictlyInBBox (b : BBox) (p : Pt) : Prop :=
  b.xmin < p.x ∧ p.x < b.xmax ∧ b.ymin < p.y ∧ p.y < b.ymax

instance (b : BBox) (p : Pt) : Decidable (strictlyInBBox b p) := by
  unfold strictlyInBBox; infer_instance

/-- Squared diagonal length of a bounding box. -/
def diagSq (b : BBox) : ℚ := (b.xmax - b.xmin) ^ 2 + (b.ymax - b.ymin) ^ 2

/-- Exact rational square root, when it exists.  Used to keep the
segment-against-arc intersection of the embedding exact: solutions of the
quadratic whose discriminant has no rational square root have irrational
coordinates and are not representable over this rational embedding. -/
def ratSqrt (q : ℚ) : Option ℚ :=
  if q < 0 then none
  else
    let n := q.num.toNat
    let sn := Nat.sqrt n
    let sd := Nat.sqrt q.den
    if sn * sn = n ∧ sd * sd = q.den then some ((sn : ℚ) / (sd : ℚ)) else none

/-- Intersection points of the closed segments [a, b] and [c, d]: the single
transversal point when the segments are not parallel, and the endpoints of
the common subsegment when they overlap collinearly (the points at which the
CGAL arrangement places vertices). -/
def segInterList (a b c d : Pt) : List Pt :=
  let d1 := Pt.sub b a
  let d2 := Pt.sub d c
  let r0 := Pt.sub c a
  let denom := cross d1 d2
  if denom ≠ 0 then
    let t := cross r0 d2 / denom
    let u := cross r0 d1 / denom
    if 0 ≤ t ∧ t ≤ 1 ∧ 0 ≤ u ∧ u ≤ 1 then [Pt.add a (Pt.smul t d1)] else []
  else if cross r0 d1 ≠ 0 then []
  else if dot d1 d1 = 0 then
    if onSegPt c d a then [a] else []
  else
    let tc := dot r0 d1 / dot d1 d1
    let td := dot (Pt.sub d a) d1 / dot d1 d1
    let lo := max 0 (min tc td)
    let hi := min 1 (max tc td)
    if hi < lo then []
    else if lo = hi then [Pt.add a (Pt.smul lo d1)]
    else [Pt.add a (Pt.smul lo d1), Pt.add a (Pt.smul hi d1)]

/-- Intersection points of the closed segment [a, b] with a circular arc,
restricted to the rational solutions of the underlying quadratic (see
ratSqrt). -/
def segArcInterList (a b : Pt) (c : Pt) (r : ℚ) (s t : Pt) (w : Bool) : List Pt :=
  let d1 := Pt.sub b a
  let f := Pt.sub a c
  let qa := dot d1 d1
  let qb := 2 * dot f d1
  let qc := dot f f - r * r
  if qa = 0 then
    if onArcPt c r s t w a then [a] else []
  else
    match ratSqrt (qb * qb - 4 * qa * qc) with
    | none => []
    | some sq =>
        let t1 := (-qb - sq) / (2 * qa)
        let t2 := (-qb + sq) / (2 * qa)
        let cand := if t1 = t2 then [t1] else [t1, t2]
        ((cand.filter (fun tt => decide (0 ≤ tt) && decide (tt ≤ 1))).map
          (fun tt => Pt.add a (Pt.smul tt d1))).filter (onArcPt c r s t w)

/-- Intersection points of the closed segment [a, b] with one Boundary
piece. -/
def edgeInterList (a b : Pt) (e : CurvEdge) : List Pt :=
  match e with
  | .seg s t => segInterList a b s t
  | .arc c r s t w => segArcInterList a b c r s t w

/-- The configuration space of the engine: the Boundary produced by eroding
the enclosure, wrapped as in configuration_space.hpp. -/
structure ConfigurationSpace where
  shape : CurvilinearPolygon2D
deriving DecidableEq, Repr

/-- Orientation query of the configuration space (configuration_space.hpp):
the orientation of the wrapped curvilinear polygon. -/
def ConfigurationSpace.orientation (cs : ConfigurationSpace) : Orientation :=
  orientationOf cs.shape

/-- CGAL oriented-side values. -/
inductive OrientedSide where
  | negativeSide
  | onBnd
  | positiveSide
deriving DecidableEq, Repr

/-- Parity-based interior test over the chords of the Boundary pieces,
counting upward crossings of the horizontal ray towards positive x.  This
only decides the positive/negative answer of the oriented-side model below;
the boundary answer is decided exactly by onCurve. -/
def insideParity (P : CurvilinearPolygon2D) (p : Pt) : Bool :=
  (P.edges.filter (fun e =>
    let a := e.srcPt
    let b := e.tgtPt
    (decide (a.y ≤ p.y) != decide (b.y ≤ p.y)) &&
    decide (p.x < a.x + (p.y - a.y) * (b.x - a.x) / (b.y - a.y)))).length % 2 == 1

/-- Model of oriented_side of the CGAL General_polygon_set_2 holding the
Boundary: the documented contract returns the boundary value exactly when
the query point lies on the boundary curve of the set. -/
def orientedSide (cs : ConfigurationSpace) (p : Pt) : OrientedSide :=
  if onCurve cs.shape p then OrientedSide.onBnd
  else if insideParity cs.shape p then OrientedSide.positiveSide
  else OrientedSide.negativeSide

/-- Point-membership query of the configuration space
(configuration_space.hpp, ConfigurationSpace::intersection(const Point2D&)):
the point is returned when the polygon set places it on the oriented
boundary, and an absent value is returned otherwise. -/
def ConfigurationSpace.intersection (cs : ConfigurationSpace) (p : Pt) : Option Pt :=
  if orientedSide cs p = OrientedSide.onBnd then some p else none

/-- Probe length used by the trajectory intersection of the source: the sum
of bounding box width and height. -/
def margin (cs : ConfigurationSpace) : ℚ :=
  (bboxOf cs.shape).xmax - (bboxOf cs.shape).xmin +
    ((bboxOf cs.shape).ymax - (bboxOf cs.shape).ymin)

/-- The finite probe segment that the crossing query builds from a ray: the
ray source, extended by the direction vector scaled by the margin. -/
def probeSegment (cs : ConfigurationSpace) (src dir : Pt) : Pt × Pt :=
  (src, Pt.add src (Pt.smul (margin cs) dir))

/-- All intersection points of the probe segment with the Boundary pieces,
listed piece by piece (before the arrangement merges coincident points into
a single vertex). -/
def rawCrossings (cs : ConfigurationSpace) (src dir : Pt) : List Pt :=
  cs.shape.edges.flatMap
    (fun e => edgeInterList (probeSegment cs src dir).1 (probeSegment cs src dir).2 e)

/-- The arrangement vertices of degree greater than two, other than the ray
source: the points at which the probe segment meets the Boundary, with
coincident per-piece intersection points merged into one vertex each, and
the source excluded as in the source loop. -/
def crossingPoints (cs : ConfigurationSpace) (src dir : Pt) : List Pt :=
  ((rawCrossings cs src dir).filter (fun p => p ≠ src)).dedup

/-- Crossing-counting query (configuration_space.hpp, the trajectory
overload of ConfigurationSpace::intersection): the number of arrangement
vertices of degree greater than two distinct from the ray source. -/
def ConfigurationSpace.intersectionCount (cs : ConfigurationSpace) (src dir : Pt) : Nat :=
  (crossingPoints cs src dir).length

/-- First-crossing query (configuration_geometry.hpp,
ConfigurationGeometryImpl::intersection over a trajectory): the first
arrangement vertex, in the enumeration order of the arrangement, that has
degree greater than two and differs from the ray source.  CGAL leaves the
enumeration order of arrangement vertices unspecified, so the order is an
argument of the embedding. -/
def firstCrossing (order : List Pt) (cs : ConfigurationSpace) (src dir : Pt) : Option Pt :=
  order.find? (fun q => decide (q ∈ crossingPoints cs src dir))

/-- An enumeration order is valid for a query when it enumerates every
arrangement vertex, in particular every crossing vertex. -/
def validOrder (order : List Pt) (cs : ConfigurationSpace) (src dir : Pt) : Prop :=
  ∀ q ∈ crossingPoints cs src dir, q ∈ order

instance (order : List Pt) (cs : ConfigurationSpace) (src dir : Pt) :
    Decidable (validOrder order cs src dir) := by
  unfold validOrder; infer_instance

/-- The crossing point nearest to the ray source, the point the
specification asks the first-crossing query to return. -/
def nearestCrossing (cs : ConfigurationSpace) (src dir : Pt) : Option Pt :=
  (crossingPoints cs src dir).argmin (fun q => sqDist src q)

/-- Model of bounded_side_2 evaluating to ON_BOUNDARY (models.hpp, line 94):
the documented contract of the CGAL routine reports the boundary value
exactly when the point lies on an edge of the polygon. -/
def onPolyBoundary (P : Polygon2D) (p : Pt) : Bool :=
  P.edgePairs.any (fun e => onSegPt e.1 e.2 p)

/-- Orientation of a plain polygon through the shoelace sign, the
orientation the configuration environment reports to the movement model. -/
def polyOrientation (P : Polygon2D) : Orientation :=
  let s := (P.edgePairs.map (fun e => cross e.1 e.2)).sum
  if 0 < s then Orientation.counterclockwise
  else if s < 0 then Orientation.clockwise
  else Orientation.collinear

/-- Vector_2::perpendicular of the kernel: rotation by a quarter turn,
counterclockwise or clockwise according to the orientation argument. -/
def perpendicularVec (v : Pt) (o : Orientation) : Pt :=
  if o = Orientation.counterclockwise then ⟨-v.y, v.x⟩ else ⟨v.y, -v.x⟩

/-- The outward-direction rejection loop of MovementModel in models.hpp
(lines 100 to 110): the movement is rejected when, on some edge containing
the origin, the dot product of the direction with the inward edge normal
falls below the floating margin of minus one millionth. -/
def outwardReject (P : Polygon2D) (origin dir : Pt) : Bool :=
  P.edgePairs.any (fun e =>
    onSegPt e.1 e.2 origin &&
    decide (dot dir (perpendicularVec (Pt.sub e.2 e.1) (polyOrientation P)) <
      -(1 / 1000000 : ℚ)))

/-- Result of the CGAL intersection of a ray with a segment: empty, a single
point, or a collinear overlap segment. -/
inductive RaySegResult where
  | nothing
  | pt (p : Pt)
  | overlap
deriving DecidableEq, Repr

/-- Intersection of the ray from origin along dir with the closed segment
[c, d], following the documented CGAL contract: a point when the
intersection is a single point, an overlap marker when it is a segment. -/
def raySegInter (origin dir c d : Pt) : RaySegResult :=
  let sv := Pt.sub d c
  let r0 := Pt.sub c origin
  let denom := cross dir sv
  if denom ≠ 0 then
    let t := cross r0 sv / denom
    let u := cross r0 dir / denom
    if 0 ≤ t ∧ 0 ≤ u ∧ u ≤ 1 then RaySegResult.pt (Pt.add origin (Pt.smul t dir))
    else RaySegResult.nothing
  else if cross r0 dir ≠ 0 then RaySegResult.nothing
  else if dot dir dir = 0 then
    if onSegPt c d origin then RaySegResult.pt origin else RaySegResult.nothing
  else
    let tc := dot r0 dir / dot dir dir
    let td := dot (Pt.sub d origin) dir / dot dir dir
    let hi := max tc td
    let lo := max 0 (min tc td)
    if hi < 0 then RaySegResult.nothing
    else if lo = hi then RaySegResult.pt (Pt.add origin (Pt.smul lo dir))
    else RaySegResult.overlap

/-- The crossing loop of MovementModel in models.hpp (lines 116 to 145):
iterate the edges in polygon order, skip any edge containing the origin,
and return the point intersection of the trajectory with the first edge
that yields one (a collinear overlap falls through to the next edge). -/
def firstEdgeCrossing (P : Polygon2D) (origin dir : Pt) : Option Pt :=
  P.edgePairs.findSome? (fun e =>
    if onSegPt e.1 e.2 origin then none
    else
      match raySegInter origin dir e.1 e.2 with
      | RaySegResult.pt p => some p
      | _ => none)

/-- MovementModel::operator() of models.hpp: reject an origin that is not on
the boundary, then run the outward-direction rejection loop, then return the
result of the crossing loop.  The heading is represented by its already
computed direction vector. -/
def movementAttempt (P : Polygon2D) (origin dir : Pt) : Option Pt :=
  if onPolyBoundary P origin = false then none
  else if outwardReject P origin dir = true then none
  else firstEdgeCrossing P origin dir

/-- MovementModel::generatePath of models.hpp: take the endpoint of the
attempt; absent endpoint or an endpoint equal to the origin yields an absent
path, otherwise the path runs from the origin to the endpoint. -/
def generatePath (P : Polygon2D) (origin dir : Pt) : Option (Pt × Pt) :=
  match movementAttempt P origin dir with
  | none => none
  | some e => if e = origin then none else some (origin, e)

/-- RotationModel of models.hpp: a fixed maximum error bound together with
the state of the pseudo-random source.  The distribution strategy is a
function from generator state to a sample and a successor state. -/
structure RotationModel (σ : Type) where
  max_rotation_error : ℚ
  prng : σ

/-- RotationModel::operator(): perturb the angle by the sample of the
distribution scaled by the maximum error, advancing the generator state. -/
def RotationModel.applyRotation {σ : Type} (dist : σ → ℚ × σ)
    (m : RotationModel σ) (angle : ℚ) : ℚ × RotationModel σ :=
  ((angle + (dist m.prng).1 * m.max_rotation_error),
    { m with prng := (dist m.prng).2 })

/-- The model after n invocations of RotationModel::operator(). -/
def RotationModel.applyTimes {σ : Type} (dist : σ → ℚ × σ) (angle : ℚ) :
    Nat → RotationModel σ → RotationModel σ
  | 0, m => m
  | Nat.succ n, m =>
      RotationModel.applyTimes dist angle n (RotationModel.applyRotation dist m angle).2

/-- RotationModel::getMaxRotation. -/
def RotationModel.getMaxRotation {σ : Type} (m : RotationModel σ) (angle : ℚ) : ℚ :=
  angle + m.max_rotation_error

/-- RotationModel::getMinRotation. -/
def RotationModel.getMinRotation {σ : Type} (m : RotationModel σ) (angle : ℚ) : ℚ :=
  angle - m.max_rotation_error

/-- WallSpace::constructConfigurationSpace of wall_space.hpp.  The CGAL
inset computation the source delegates to is an external routine and enters
the embedding as the function argument; the source then fails exactly when
the number of returned inset polygons differs from one, reverses the single
polygon when its orientation is not counterclockwise, and wraps it. -/
def constructConfigurationSpace
    (approximatedInset : Polygon2D → ℚ → List CurvilinearPolygon2D)
    (wall_shape : Polygon2D) (robot_radius : ℚ) : Option ConfigurationSpace :=
  match approximatedInset wall_shape robot_radius with
  | [front] =>
      some ⟨if orientationOf front ≠ Orientation.counterclockwise
            then reversePoly front else front⟩
  | _ => none

/-! Concrete fixtures mirroring the test suite: the erosion of the 10 by 10
square enclosure by radius 1 (a square Boundary with corners 1 and 9), and a
concave pentagon with a deep notch used to exercise the concave cases. -/

/-- The square Boundary produced by eroding the square enclosure with
corners 0 and 10 by radius 1, as in the test fixtures. -/
def sqBoundary : CurvilinearPolygon2D :=
  ⟨[CurvEdge.seg ⟨1, 1⟩ ⟨9, 1⟩, CurvEdge.seg ⟨9, 1⟩ ⟨9, 9⟩,
    CurvEdge.seg ⟨9, 9⟩ ⟨1, 9⟩, CurvEdge.seg ⟨1, 9⟩ ⟨1, 1⟩]⟩

def sqCS : ConfigurationSpace := ⟨sqBoundary⟩

/-- A simple concave pentagon with a deep notch reaching down to the point
with coordinates 5 and 1, listed counterclockwise. -/
def pentBoundary : CurvilinearPolygon2D :=
  ⟨[CurvEdge.seg ⟨0, 0⟩ ⟨10, 0⟩, CurvEdge.seg ⟨10, 0⟩ ⟨10, 10⟩,
    CurvEdge.seg ⟨10, 10⟩ ⟨5, 1⟩, CurvEdge.seg ⟨5, 1⟩ ⟨0, 10⟩,
    CurvEdge.seg ⟨0, 10⟩ ⟨0, 0⟩]⟩

def pentCS : ConfigurationSpace := ⟨pentBoundary⟩

/-- The square Boundary as a plain polygon, the form consumed by the
movement model of models.hpp. -/
def sqPoly : Polygon2D := ⟨[⟨1, 1⟩, ⟨9, 1⟩, ⟨9, 9⟩, ⟨1, 9⟩]⟩

/-- The concave pentagon as a plain polygon. -/
def pentPoly : Polygon2D := ⟨[⟨0, 0⟩, ⟨10, 0⟩, ⟨10, 10⟩, ⟨5, 1⟩, ⟨0, 10⟩]⟩

/-- The square enclosure wall of the test fixtures. -/
def wallSquare : Polygon2D := ⟨[⟨0, 0⟩, ⟨10, 0⟩, ⟨10, 10⟩, ⟨0, 10⟩]⟩

/-- An inset computation returning a single Boundary, used to instantiate
the construction theorems. -/
def insetSingle : Polygon2D → ℚ → List CurvilinearPolygon2D := fun _ _ => [sqBoundary]

/-- The square Boundary listed clockwise, used to exercise the orientation
reversal branch of the construction. -/
def cwSquare : CurvilinearPolygon2D :=
  ⟨[CurvEdge.seg ⟨1, 1⟩ ⟨1, 9⟩, CurvEdge.seg ⟨1, 9⟩ ⟨9, 9⟩,
    CurvEdge.seg ⟨9, 9⟩ ⟨9, 1⟩, CurvEdge.seg ⟨9, 1⟩ ⟨1, 1⟩]⟩

/-- An inset computation returning a single clockwise Boundary. -/
def insetCw : Polygon2D → ℚ → List CurvilinearPolygon2D := fun _ _ => [cwSquare]

/-- C1: for every enclosure polygon and radius, constructConfigurationSpace
returns an absent value exactly when the inward erosion yields zero
connected components or more than one; when it yields exactly one, a
Boundary is returned, so no partial or corrupt Boundary is exposed on
failure. -/
theorem construct_none_iff_inset_count
    (inset : Polygon2D → ℚ → List CurvilinearPolygon2D)
    (wall : Polygon2D) (r : ℚ) :
    (constructConfigurationSpace inset wall r = none ↔
      ((inset wall r).length = 0 ∨ 1 < (inset wall r).length)) ∧
    ((inset wall r).length = 1 → (constructConfigurationSpace inset wall r).isSome) := by
  cases hl : inset wall r with
  | nil => simp [constructConfigurationSpace, hl]
  | cons a t =>
    cases t with
    | nil => simp [constructConfigurationSpace, hl]
    | cons b t2 =>
      simp [constructConfigurationSpace, hl]

/-- Witness for C1 at a concrete single-polygon inset result. -/
theorem construct_none_iff_inset_count_witness :
    (constructConfigurationSpace insetSingle wallSquare 1).isSome :=
  (construct_none_iff_inset_count insetSingle wallSquare 1).2 (by with_unfolding_all decide)

/-- C2: the point-membership query returns a present value exactly when the
point lies on some segment or arc of the Boundary, and an absent value for
every other point, in particular every strictly interior and every strictly
exterior point. -/
theorem intersection_some_iff_on_curve (cs : ConfigurationSpace) (p : Pt) :
    (ConfigurationSpace.intersection cs p = some p ↔ onCurve cs.shape p = true) ∧
    (onCurve cs.shape p = false → ConfigurationSpace.intersection cs p = none) := by
  unfold ConfigurationSpace.intersection orientedSide
  by_cases h : onCurve cs.shape p
  · simp [h]
  · have h2 : onCurve cs.shape p = false := by simpa using h
    simp [h2]
    by_cases hi : insideParity cs.shape p <;> simp [hi]

/-- Witness for C2: on the square Boundary the interior point at 5, 5 is
rejected and the boundary point at 1, 5 is accepted. -/
theorem intersection_some_iff_on_curve_witness :
    ConfigurationSpace.intersection sqCS ⟨5, 5⟩ = none ∧
    ConfigurationSpace.intersection sqCS ⟨1, 5⟩ = some ⟨1, 5⟩ :=
  ⟨(intersection_some_iff_on_curve sqCS ⟨5, 5⟩).2 (by with_unfolding_all decide),
   (intersection_some_iff_on_curve sqCS ⟨1, 5⟩).1.mpr (by with_unfolding_all decide)⟩

/-- C3 counterexample: a legitimate arrangement enumeration order on the
concave pentagon Boundary for which the first-crossing query returns a
crossing that is not the nearest forward crossing.  The source loop returns
the first vertex of degree greater than two in the enumeration order of the
arrangement, an order CGAL leaves unspecified, and performs no sorting by
distance. -/
theorem first_crossing_not_nearest_counterexample :
    validOrder [⟨0, 11/2⟩, ⟨5/2, 11/2⟩] pentCS ⟨15/2, 11/2⟩ ⟨-1, 0⟩ ∧
    firstCrossing [⟨0, 11/2⟩, ⟨5/2, 11/2⟩] pentCS ⟨15/2, 11/2⟩ ⟨-1, 0⟩ = some ⟨0, 11/2⟩ ∧
    nearestCrossing pentCS ⟨15/2, 11/2⟩ ⟨-1, 0⟩ = some ⟨5/2, 11/2⟩ ∧
    firstCrossing [⟨0, 11/2⟩, ⟨5/2, 11/2⟩] pentCS ⟨15/2, 11/2⟩ ⟨-1, 0⟩ ≠
      nearestCrossing pentCS ⟨15/2, 11/2⟩ ⟨-1, 0⟩ := by
  with_unfolding_all decide

/-- C3 amended: under every valid enumeration order, the first-crossing
query returns some point at which the probe meets the Boundary other than
the origin (not necessarily the nearest one), and returns an absent value
exactly when no such crossing point exists. -/
theorem first_crossing_membership (cs : ConfigurationSpace) (src dir : Pt)
    (order : List Pt) (h : validOrder order cs src dir) :
    ((firstCrossing order cs src dir).isSome ↔ crossingPoints cs src dir ≠ []) ∧
    (∀ p, firstCrossing order cs src dir = some p → p ∈ crossingPoints cs src dir) := by
  have hfound : ∀ p, firstCrossing order cs src dir = some p →
      p ∈ crossingPoints cs src dir := by
    intro p hp
    have := List.find?_some hp
    simpa using this
  refine ⟨⟨?_, ?_⟩, hfound⟩
  · intro hs hnil
    obtain ⟨p, hp⟩ := Option.isSome_iff_exists.mp hs
    have hmem := hfound p hp
    rw [hnil] at hmem
    simp at hmem
  · intro hne
    obtain ⟨q, hq⟩ := List.exists_mem_of_ne_nil _ hne
    unfold firstCrossing
    rw [List.find?_isSome]
    exact ⟨q, h q hq, by simpa using hq⟩

/-- Witness for the amended C3 on the square Boundary. -/
theorem first_crossing_membership_witness :
    ((firstCrossing [⟨9, 5⟩] sqCS ⟨1, 5⟩ ⟨1, 0⟩).isSome ↔
      crossingPoints sqCS ⟨1, 5⟩ ⟨1, 0⟩ ≠ []) ∧
    (∀ p, firstCrossing [⟨9, 5⟩] sqCS ⟨1, 5⟩ ⟨1, 0⟩ = some p →
      p ∈ crossingPoints sqCS ⟨1, 5⟩ ⟨1, 0⟩) :=
  first_crossing_membership sqCS ⟨1, 5⟩ ⟨1, 0⟩ [⟨9, 5⟩] (by with_unfolding_all decide)

/-- C4 counterexample: on the concave pentagon, with the origin on the right
notch edge and the direction pointing out of that edge but back into the
left wing, the separate outward-check step of models.hpp rejects the
movement while the crossing loop alone would return a crossing, so the
outward check is a second rejection mechanism that alters the result. -/
theorem attempt_outward_check_counterexample :
    onPolyBoundary pentPoly ⟨15/2, 11/2⟩ = true ∧
    outwardReject pentPoly ⟨15/2, 11/2⟩ ⟨-1, 0⟩ = true ∧
    firstEdgeCrossing pentPoly ⟨15/2, 11/2⟩ ⟨-1, 0⟩ = some ⟨5/2, 11/2⟩ ∧
    movementAttempt pentPoly ⟨15/2, 11/2⟩ ⟨-1, 0⟩ = none ∧
    movementAttempt pentPoly ⟨15/2, 11/2⟩ ⟨-1, 0⟩ ≠
      firstEdgeCrossing pentPoly ⟨15/2, 11/2⟩ ⟨-1, 0⟩ := by
  with_unfolding_all decide

/-- C4 amended: for an origin on the Boundary, the movement attempt returns
the result of the crossing loop only after the separate outward-check step
passes; when the outward check rejects, the attempt returns an absent value
regardless of what the crossing loop would return. -/
theorem attempt_equals_crossing_unless_outward_check (P : Polygon2D) (origin dir : Pt)
    (h : onPolyBoundary P origin = true) :
    movementAttempt P origin dir =
      if outwardReject P origin dir = true then none
      else firstEdgeCrossing P origin dir := by
  unfold movementAttempt
  simp [h]

/-- Witness for the amended C4 on the square boundary polygon. -/
theorem attempt_equals_crossing_unless_outward_check_witness :
    movementAttempt sqPoly ⟨5, 1⟩ ⟨0, 1⟩ =
      if outwardReject sqPoly ⟨5, 1⟩ ⟨0, 1⟩ = true then none
      else firstEdgeCrossing sqPoly ⟨5, 1⟩ ⟨0, 1⟩ :=
  attempt_equals_crossing_unless_outward_check sqPoly ⟨5, 1⟩ ⟨0, 1⟩
    (by with_unfolding_all decide)

/-- C5: for every boundary polygon, heading and point not on the boundary,
the movement attempt returns an ordinary absent value. -/
theorem attempt_none_of_origin_off_boundary (P : Polygon2D) (p dir : Pt)
    (h : onPolyBoundary P p = false) :
    movementAttempt P p dir = none := by
  unfold movementAttempt
  simp [h]

/-- Witness for C5 at the interior point 5, 5 of the square boundary. -/
theorem attempt_none_of_origin_off_boundary_witness :
    movementAttempt sqPoly ⟨5, 5⟩ ⟨1, 0⟩ = none :=
  attempt_none_of_origin_off_boundary sqPoly ⟨5, 5⟩ ⟨1, 0⟩ (by with_unfolding_all decide)

/-- C6: a crossing point lying on two or more incident Boundary pieces is a
single arrangement vertex and is counted exactly once by the
crossing-counting query, not once per incident piece. -/
theorem crossing_at_vertex_counted_once (cs : ConfigurationSpace) (src dir q : Pt)
    (hq : q ∈ crossingPoints cs src dir)
    (_hvert : 2 ≤ (cs.shape.edges.filter (fun e => onEdge e q)).length) :
    (crossingPoints cs src dir).count q = 1 ∧
    ConfigurationSpace.intersectionCount cs src dir = (crossingPoints cs src dir).length := by
  refine ⟨?_, rfl⟩
  exact List.count_eq_one_of_mem (List.nodup_dedup _) hq

/-- Witness for C6: the diagonal ray from the corner at 1, 1 of the square
Boundary crosses at the opposite corner 9, 9, a vertex on two incident
pieces, and the count there is one. -/
theorem crossing_at_vertex_counted_once_witness :
    (crossingPoints sqCS ⟨1, 1⟩ ⟨1, 1⟩).count ⟨9, 9⟩ = 1 ∧
    ConfigurationSpace.intersectionCount sqCS ⟨1, 1⟩ ⟨1, 1⟩ =
      (crossingPoints sqCS ⟨1, 1⟩ ⟨1, 1⟩).length :=
  crossing_at_vertex_counted_once sqCS ⟨1, 1⟩ ⟨1, 1⟩ ⟨9, 9⟩
    (by with_unfolding_all decide) (by with_unfolding_all decide)

/-- C8: the path generation returns an absent value exactly when the attempt
returns an absent value or returns the origin itself, and otherwise returns
the segment from the origin to the attempt endpoint. -/
theorem generate_path_none_iff (P : Polygon2D) (origin dir : Pt) :
    (generatePath P origin dir = none ↔
      (movementAttempt P origin dir = none ∨ movementAttempt P origin dir = some origin)) ∧
    (∀ p, movementAttempt P origin dir = some p → p ≠ origin →
      generatePath P origin dir = some (origin, p)) := by
  unfold generatePath
  cases h : movementAttempt P origin dir with
  | none => simp
  | some e =>
    by_cases he : e = origin
    · subst he; simp
    · simp [he]

/-- Witness for C8: the upward movement from the bottom edge midpoint of the
square boundary yields the segment up to the top edge. -/
theorem generate_path_none_iff_witness :
    generatePath sqPoly ⟨5, 1⟩ ⟨0, 1⟩ = some (⟨5, 1⟩, ⟨5, 9⟩) :=
  (generate_path_none_iff sqPoly ⟨5, 1⟩ ⟨0, 1⟩).2 ⟨5, 9⟩
    (by with_unfolding_all decide) (by with_unfolding_all decide)

/-- C7 counterexample: for a probe whose source lies outside the bounding
box of the square Boundary, the probe built with the sum of box width and
height terminates strictly inside the bounding box and misses a Boundary
crossing that lies further along the ray (the point 9, 5 at distance 19
along the unit direction, beyond the probe length 16). -/
theorem probe_inside_bbox_counterexample :
    probeSegment sqCS ⟨-10, 5⟩ ⟨1, 0⟩ = (⟨-10, 5⟩, ⟨6, 5⟩) ∧
    strictlyInBBox (bboxOf sqCS.shape) ⟨6, 5⟩ ∧
    onCurve sqCS.shape ⟨9, 5⟩ = true ∧
    Pt.add ⟨-10, 5⟩ (Pt.smul 19 ⟨1, 0⟩) = ⟨9, 5⟩ ∧
    ⟨9, 5⟩ ∉ crossingPoints sqCS ⟨-10, 5⟩ ⟨1, 0⟩ := by
  with_unfolding_all decide

/-- C7 amended: for every query ray with a unit direction whose source lies
in the bounding box of the Boundary (in particular for every source on the
Boundary), the probe segment has squared length at least the squared
bounding box diagonal and its endpoint never falls strictly inside the
bounding box. -/
theorem probe_length_covers_bbox (cs : ConfigurationSpace) (src dir : Pt)
    (hunit : dir.x ^ 2 + dir.y ^ 2 = 1)
    (hsrc : inBBox (bboxOf cs.shape) src) :
    diagSq (bboxOf cs.shape) ≤ sqDist src (probeSegment cs src dir).2 ∧
    ¬ strictlyInBBox (bboxOf cs.shape) (probeSegment cs src dir).2 := by
  obtain ⟨hx1, hx2, hy1, hy2⟩ := hsrc
  have hw0 : 0 ≤ (bboxOf cs.shape).xmax - (bboxOf cs.shape).xmin := by linarith
  have hh0 : 0 ≤ (bboxOf cs.shape).ymax - (bboxOf cs.shape).ymin := by linarith
  have hm : margin cs =
      ((bboxOf cs.shape).xmax - (bboxOf cs.shape).xmin) +
        ((bboxOf cs.shape).ymax - (bboxOf cs.shape).ymin) := rfl
  have hend : (probeSegment cs src dir).2 =
      ⟨src.x + margin cs * dir.x, src.y + margin cs * dir.y⟩ := rfl
  have hlen : sqDist src (probeSegment cs src dir).2 = margin cs ^ 2 := by
    rw [hend]
    unfold sqDist
    dsimp only
    linear_combination (margin cs) ^ 2 * hunit
  constructor
  · rw [hlen, hm]
    unfold diagSq
    nlinarith [mul_nonneg hw0 hh0]
  · intro hstrict
    rw [hend] at hstrict
    obtain ⟨s1, s2, s3, s4⟩ := hstrict
    dsimp only at s1 s2 s3 s4
    have q1 : (margin cs * dir.x) ^ 2 <
        ((bboxOf cs.shape).xmax - (bboxOf cs.shape).xmin) ^ 2 := by
      apply sq_lt_sq' <;> linarith
    have q2 : (margin cs * dir.y) ^ 2 <
        ((bboxOf cs.shape).ymax - (bboxOf cs.shape).ymin) ^ 2 := by
      apply sq_lt_sq' <;> linarith
    have heq : (margin cs * dir.x) ^ 2 + (margin cs * dir.y) ^ 2 = margin cs ^ 2 := by
      linear_combination (margin cs) ^ 2 * hunit
    rw [hm] at q1 q2 heq
    nlinarith [mul_nonneg hw0 hh0]

/-- Witness for the amended C7 on the square Boundary with the upward unit
direction from a boundary point. -/
theorem probe_length_covers_bbox_witness :
    diagSq (bboxOf sqCS.shape) ≤ sqDist ⟨1, 5⟩ (probeSegment sqCS ⟨1, 5⟩ ⟨0, 1⟩).2 ∧
    ¬ strictlyInBBox (bboxOf sqCS.shape) (probeSegment sqCS ⟨1, 5⟩ ⟨0, 1⟩).2 :=
  probe_length_covers_bbox sqCS ⟨1, 5⟩ ⟨0, 1⟩ (by norm_num)
    (by with_unfolding_all decide)

/-- C9: the bounds the rotation model reports are the requested heading
shifted by plus and minus the fixed maximum error the instance was
constructed with, regardless of the distribution strategy and of how many
times the model has been invoked. -/
theorem rotation_bounds_fixed (σ : Type) (dist : σ → ℚ × σ)
    (m : RotationModel σ) (a : ℚ) (n : Nat) (h : ℚ) :
    (RotationModel.applyTimes dist a n m).getMinRotation h = h - m.max_rotation_error ∧
    (RotationModel.applyTimes dist a n m).getMaxRotation h = h + m.max_rotation_error := by
  induction n generalizing m with
  | zero =>
    simp [RotationModel.applyTimes, RotationModel.getMinRotation,
      RotationModel.getMaxRotation]
  | succ k ih =>
    have := ih (RotationModel.applyRotation dist m a).2
    simpa [RotationModel.applyTimes, RotationModel.applyRotation] using this

/-- The reversal of a curve piece negates its shoelace contribution. -/
theorem crossOfEdge_flip (e : CurvEdge) : crossOfEdge (CurvEdge.flip e) = - crossOfEdge e := by
  cases e <;>
    simp [crossOfEdge, CurvEdge.flip, CurvEdge.srcPt, CurvEdge.tgtPt, cross] <;> ring

/-- Shoelace sum of the edgewise reversal of a list of curve pieces. -/
theorem sum_map_crossOfEdge_flip (l : List CurvEdge) :
    (l.map (fun e => crossOfEdge (CurvEdge.flip e))).sum = - (l.map crossOfEdge).sum := by
  induction l with
  | nil => simp
  | cons e t ih =>
    rw [List.map_cons, List.sum_cons, ih, crossOfEdge_flip,
      List.map_cons, List.sum_cons]
    ring

/-- Reversing a curvilinear polygon negates its shoelace sum. -/
theorem sumCross_reverse (P : CurvilinearPolygon2D) :
    sumCross (reversePoly P) = - sumCross P := by
  unfold sumCross reversePoly
  rw [List.map_reverse, List.sum_reverse, List.map_map]
  simpa [Function.comp] using sum_map_crossOfEdge_flip P.edges

/-- C10: every configuration space returned by a successful construction
whose inset polygon has a definite winding (not collinear) reports
counterclockwise orientation, since the construction reverses the inset
polygon exactly when its orientation is not counterclockwise. -/
theorem constructed_orientation_ccw
    (inset : Polygon2D → ℚ → List CurvilinearPolygon2D)
    (wall : Polygon2D) (r : ℚ) (cs : ConfigurationSpace)
    (hnd : ∀ p ∈ inset wall r, orientationOf p ≠ Orientation.collinear)
    (hc : constructConfigurationSpace inset wall r = some cs) :
    ConfigurationSpace.orientation cs = Orientation.counterclockwise := by
  unfold constructConfigurationSpace at hc
  cases hl : inset wall r with
  | nil => rw [hl] at hc; simp at hc
  | cons a t =>
    cases t with
    | cons b t2 => rw [hl] at hc; simp at hc
    | nil =>
      rw [hl] at hc
      simp only [Option.some.injEq] at hc
      have ha : orientationOf a ≠ Orientation.collinear := hnd a (by simp [hl])
      subst hc
      unfold ConfigurationSpace.orientation
      by_cases ho : orientationOf a = Orientation.counterclockwise
      · simp [ho]
      · simp only [ho, ne_eq, not_false_iff, if_true]
        have hneg : sumCross a < 0 := by
          by_cases h1 : 0 < sumCross a
          · exact absurd (by unfold orientationOf; simp [h1]) ho
          · by_cases h2 : sumCross a < 0
            · exact h2
            · exact absurd (by unfold orientationOf; simp [h1, h2]) ha
        unfold orientationOf
        rw [sumCross_reverse]
        have : 0 < - sumCross a := by linarith
        simp [this]

/-- Witness for C10: a clockwise inset square is reversed by the
construction and the resulting configuration space reports counterclockwise
orientation. -/
theorem constructed_orientation_ccw_witness :
    ConfigurationSpace.orientation ⟨reversePoly cwSquare⟩ = Orientation.counterclockwise :=
  constructed_orientation_ccw insetCw wallSquare 1 ⟨reversePoly cwSquare⟩
    (by with_unfolding_all decide) (by with_unfolding_all decide)

end BURST
